import Mathlib

/-
Formal model of `prism_central.py`, a dynamic Ansible inventory script for
Nutanix Prism Central, together with theorems checking its documented
behaviour.  Each definition is a shallow embedding of one function of the
script; source line numbers refer to `prism_central.py`.

Modelling conventions:
* JSON documents are values of a small inductive `Json` type.
* Python dictionaries that the script only looks up by key are modelled as
  functions `String → Option _` (the script targets Python 2, where dict
  iteration order is unspecified, and no claim depends on it).
* Machine times are integers; `time()` and `getmtime` results are passed in
  as parameters.
* A Python run-time exception that the script does not catch is modelled by
  an explicit error value (`Option`/`raised`/`crashed`).
-/

namespace PrismCentral

/-- Json values, as produced by `json.loads`. -/
inductive Json where
  | null
  | bool (b : Bool)
  | num (n : Int)
  | str (s : String)
  | arr (elems : List Json)
  | obj (fields : List (String × Json))

/-- Python values that can sit in the payload slot of `rest_call`'s
return: a decoded JSON document, a raw (undecoded) string such as the
result of `response.read()`, or Python `None`. -/
inductive PyVal where
  | json (j : Json)
  | str (s : String)
  | pynone

/-- Outcome of the single HTTPS request issued by `rest_call`
(lines 166-171): a 2xx response with a body, an `urllib2.HTTPError`
carrying an error body, or any other exception (socket timeout, TLS
failure, connection refused, ...). -/
inductive HttpOutcome where
  | success (body : String)
  | httpError (errBody : String)
  | transportError

/-- Return value of `rest_call`: either the normal return (the decoded
body, or the raw empty string when the body was empty), or the sentinel
pair `(code, payload)` returned from the `except` branches. -/
inductive RestResult where
  | ok (v : PyVal)
  | err (code : String) (payload : PyVal)

/-- Model of `PcManager.rest_call` (lines 148-197).  `parse` stands for
`json.loads`, returning `none` when decoding raises `ValueError`.
* success, empty body: `result = ""` is returned as-is (line 182-185);
* success, non-empty body: `json.loads(result)` is returned; if decoding
  raises, the generic `except Exception` returns `("408", None)`;
* `HTTPError`, empty error body: the `if err_result:` test is false and
  `return "408", err_result` returns the raw empty string (line 194);
* `HTTPError`, non-empty body: the body is decoded and returned as the
  payload; a decode failure returns `("408", None)` (lines 189-193);
* any other exception: `("408", None)` (lines 195-197).
The `response_file` branch (lines 173-180) is never used by this script
and is not modelled. -/
def rest_call (parse : String → Option Json) (o : HttpOutcome) : RestResult :=
  match o with
  | HttpOutcome.success body =>
      if body = "" then RestResult.ok (PyVal.str "")
      else
        match parse body with
        | some j => RestResult.ok (PyVal.json j)
        | none => RestResult.err "408" PyVal.pynone
  | HttpOutcome.httpError errBody =>
      if errBody = "" then RestResult.err "408" (PyVal.str errBody)
      else
        match parse errBody with
        | some j => RestResult.err "408" (PyVal.json j)
        | none => RestResult.err "408" PyVal.pynone
  | HttpOutcome.transportError => RestResult.err "408" PyVal.pynone

/-- Whether the HTTP outcome is a failure (non-2xx status or transport
error), the cases the error-normalization contract is about. -/
def is_failure (o : HttpOutcome) : Bool :=
  match o with
  | HttpOutcome.success _ => false
  | HttpOutcome.httpError _ => true
  | HttpOutcome.transportError => true

/-- Result of reading the cache file in `load_from_cache`:
`missing` models `open` raising `IOError`; `content p` models a readable
file whose `json.loads` result is `p` (`none` when decoding raises
`ValueError`). -/
inductive CacheRead where
  | missing
  | content (parsed : Option Json)

/-- Result of `load_from_cache`: either the two member assignments
succeeded (`self.data = data['data']; self.inventory = data['inventory']`),
or an exception escaped the method (uncaught `ValueError` from
`json.loads`, or a lookup error on `data['data']`/`data['inventory']`). -/
inductive LoadResult where
  | ok (data inventory : Json)
  | raised

/-- Dictionary lookup `j[k]`, as `Option`: `none` models the `KeyError`
(or `TypeError` on a non-dict) that Python would raise. -/
def get_key (j : Json) (k : String) : Option Json :=
  match j with
  | Json.obj fields => fields.lookup k
  | _ => none

/-- Model of `PrismCentralInventory.load_from_cache` (lines 549-559).
Only `IOError` is caught (line 555); a JSON decode failure propagates. -/
def load_from_cache (r : CacheRead) : LoadResult :=
  match r with
  | CacheRead.missing => LoadResult.ok (Json.obj []) (Json.obj [])
  | CacheRead.content none => LoadResult.raised
  | CacheRead.content (some j) =>
      match get_key j "data", get_key j "inventory" with
      | some d, some i => LoadResult.ok d i
      | some _, none => LoadResult.raised
      | none, _ => LoadResult.raised

/-- Model of `PrismCentralInventory.is_cache_valid` (lines 540-547).
`fileExists` is `os.path.isfile(self.cache_filename)`, `modTime` is
`os.path.getmtime`, `now` is `time()`. -/
def is_cache_valid (fileExists : Bool) (modTime maxAge now : Int) : Bool :=
  if fileExists then decide (modTime + maxAge > now) else false

/-- Resource collections the script can fetch (the five keys written into
`self.data` by `load_from_prism_central`). -/
inductive Resource where
  | vms
  | clusters
  | projects
  | categories
  | nodes
  deriving DecidableEq, Repr

/-- Model of `PrismCentralInventory.load_from_prism_central`
(lines 439-463), returning the list of resource collections fetched from
the API on this call, in the fetch order of the source.  `resource = none`
models the Python call with `resource=None` ("all resources").
`cacheValid` stands for the `self.is_cache_valid()` call on line 444 and
`fileExists` for `os.path.isfile(self.cache_filename)` on line 441.
The run set `self.cache_refreshed = True` exactly when the returned list
is non-empty. -/
def load_from_prism_central (force_cache refresh_cache fileExists cacheValid : Bool)
    (resource : Option Resource) : List Resource :=
  if force_cache && fileExists then []
  else if cacheValid && !(resource == some Resource.vms || resource == none) then []
  else
    let resource := if refresh_cache then none else resource
    (if resource == some Resource.vms || resource == none then [Resource.vms] else [])
      ++ (if resource == some Resource.clusters || resource == none then [Resource.clusters] else [])
      ++ (if resource == some Resource.projects || resource == none then [Resource.projects] else [])
      ++ (if resource == some Resource.categories || resource == none then [Resource.categories] else [])
      ++ (if resource == some Resource.nodes || resource == none then [Resource.nodes] else [])

/-- Typed view of a VM entity, restricted to the fields `build_inventory`
reads (lines 491-525).  `nic_list` is `vm['status']['resources']['nic_list']`
with each interface reduced to the `ip` fields of its `ip_endpoint_list`;
`categories` is `vm['metadata']['categories']` as a key/value list. -/
structure Vm where
  uuid : String
  name : String
  cluster_name : String
  project_name : String
  owner_name : String
  hypervisor_type : String
  power_state : String
  categories : List (String × String)
  nic_list : List (List String)
  deriving DecidableEq, Repr

/-- Entry of the inventory dictionary for one group: the `{'hosts': [],
'vars': {}}` dict created by `add_inventory_group` (lines 465-469), and the
`all` entry created in `build_inventory` (lines 482-486). -/
structure GroupEntry where
  hosts : List String
  vars : Json

/-- Group table of the inventory: every key of `self.inventory` other than
`'_meta'`, including `'all'`. -/
def Groups : Type := String → Option GroupEntry

/-- Ansible inventory built by `build_inventory`.  The `'_meta'` entry of
the Python dict holds only the `hostvars` mapping and is kept as a separate
field; `groups` holds every other key, including `'all'`. -/
structure Inventory where
  groups : Groups
  hostvars : String → Option Vm

/-- Model of `PrismCentralInventory.to_safe` (lines 572-575): every
character outside `[A-Za-z0-9\-.]` is replaced with an underscore. -/
def is_safe_char (c : Char) : Bool :=
  decide ('A' ≤ c ∧ c ≤ 'Z') ||
  decide ('a' ≤ c ∧ c ≤ 'z') ||
  decide ('0' ≤ c ∧ c ≤ '9') ||
  (c == '-') || (c == '.')

/-- Model of `to_safe` over the string's characters. -/
def to_safe (word : String) : String :=
  String.mk (word.data.map (fun c => if is_safe_char c then c else '_'))

/-- Python's `str.lower()` on one character (the script's inputs are
ASCII; only `A`-`Z` are affected). -/
def py_lower_char (c : Char) : Char :=
  if 'A' ≤ c ∧ c ≤ 'Z' then Char.ofNat (c.toNat + 32) else c

/-- Python's `str.lower()`. -/
def py_lower (s : String) : String :=
  String.mk (s.data.map py_lower_char)

/-- Model of `add_inventory_group` (lines 465-469): `self.inventory[key] =
{'hosts': [], 'vars': {}}`. -/
def add_inventory_group (g : Groups) (key : String) : Groups :=
  fun k => if k = key then some { hosts := [], vars := Json.obj [] } else g k

/-- Model of `add_host` (lines 471-478).  When the group is absent it is
created by `add_inventory_group` and the host appended to the fresh empty
list; when present, the host is appended only if not already a member. -/
def add_host (g : Groups) (grp host : String) : Groups :=
  match g grp with
  | none => fun k => if k = grp then some { hosts := [host], vars := Json.obj [] } else g k
  | some e =>
      if host ∈ e.hosts then g
      else fun k => if k = grp then some { e with hosts := e.hosts ++ [host] } else g k

/-- Model of the interface scan of `build_inventory` (lines 492-496):
`dest` starts as the value carried in from the previous iteration of the
outer VM loop (`none` when never assigned) and is overwritten by
`net['ip_endpoint_list'][0]['ip']` for every interface whose
`ip_endpoint_list` is non-empty; there is no `break`. -/
def vm_scan_dest (dest : Option String) (nics : List (List String)) : Option String :=
  nics.foldl
    (fun d nic =>
      match nic with
      | [] => d
      | ip :: _ => some ip)
    dest

/-- Group names of lines 505-510 (`prism_central`, `cluster_...`,
`project_...`, `owner_...`, `hypervisor_...`, `status_...`). -/
def fixed_groups (vm : Vm) : List String :=
  ["prism_central",
   "cluster_" ++ py_lower vm.cluster_name,
   "project_" ++ py_lower vm.project_name,
   "owner_" ++ py_lower vm.owner_name,
   "hypervisor_" ++ py_lower vm.hypervisor_type,
   "status_" ++ py_lower vm.power_state]

/-- Category group name of line 516: `'category_' + group.lower() + "_" +
to_safe(categories[group]).lower()`.  Note the key is lowered but not
passed through `to_safe`; only the value is. -/
def category_group (k v : String) : String :=
  "category_" ++ py_lower k ++ "_" ++ py_lower (to_safe v)

/-- Unconditional `self.inventory['all']['hosts'].append(dest)` of
line 498 (no membership check). -/
def append_all_host (g : Groups) (dest : String) : Groups :=
  fun k =>
    if k = "all" then (g "all").map (fun e => { e with hosts := e.hosts ++ [dest] })
    else g k

/-- Category-loop step (lines 514-517): keys with an empty name are
skipped (`if group:`). -/
def cat_step (dest : String) (g : Groups) (kv : String × String) : Groups :=
  if kv.1 = "" then g else add_host g (category_group kv.1 kv.2) dest

/-- Group-table updates performed for one VM once its `dest` is known, in
source order: the unconditional append to `all` (line 498), `add_host` on
the UUID (line 500) and the display name (line 502), the six fixed groups
(lines 505-511), and the category groups (lines 514-517). -/
def vm_groups (g : Groups) (vm : Vm) (dest : String) : Groups :=
  vm.categories.foldl (cat_step dest)
    ((fixed_groups vm).foldl (fun acc grp => add_host acc grp dest)
      (add_host (add_host (append_all_host g dest) vm.uuid dest) vm.name dest))

/-- Body of the outer VM loop of `build_inventory` (lines 491-525) for one
VM.  `dest0` is the value of the local variable `dest` before this
iteration; the result is `none` when `dest` was never assigned, modelling
the `NameError` the script raises at line 498 in that case.  Line 525
(`self.inventory['_meta']['hostvars'][dest] = vm`) becomes the `hostvars`
update. -/
def process_vm (inv : Inventory) (dest0 : Option String) (vm : Vm) :
    Option (Inventory × String) :=
  match vm_scan_dest dest0 vm.nic_list with
  | none => none
  | some dest =>
      some ({ groups := vm_groups inv.groups vm dest,
              hostvars := fun k => if k = dest then some vm else inv.hostvars k },
            dest)

/-- Initial inventory of lines 482-488: `{'all': {'hosts': [], 'vars':
group_variables}, '_meta': {'hostvars': {}}}`. -/
def init_inventory (gv : Json) : Inventory :=
  { groups := fun k => if k = "all" then some { hosts := [], vars := gv } else none,
    hostvars := fun _ => none }

/-- Model of `build_inventory` (lines 480-525) applied to
`self.data['vms']['entities']`.  Returns `none` when the run crashes with
`NameError` (a VM before any assigned address was ever seen). -/
def build_inventory (gv : Json) (vms : List Vm) : Option Inventory :=
  (vms.foldlM
      (fun (st : Inventory × Option String) vm =>
        (process_vm st.1 st.2 vm).map (fun p => (p.1, some p.2)))
      (init_inventory gv, none)).map
    (fun st => st.1)

/-- Command selected on the command line, following the `elif` chain of
lines 318-341 (the flags are tested in this order, `--list` being the
default).  The `--host` branch calls the Host Lookup path instead of the
Resource Loader and is outside the scope of this model, as is `--env`,
which exits before the cache is touched. -/
inductive Command where
  | vms
  | clusters
  | projects
  | categories
  | nodes
  | all
  | list
  deriving DecidableEq, Repr

/-- Parsed content of the cache file when it is read successfully:
`dataKeys` are the resource keys present in the snapshot's `data` dict and
`vmsEntities` is `data['vms']['entities']` (meaningful when `Resource.vms`
is among the keys). -/
structure CacheSnapshot where
  dataKeys : List Resource
  vmsEntities : List Vm
  deriving DecidableEq, Repr

/-- Observable outcome of a run: an explicit `sys.exit(code)` before any
output, a crash from an uncaught exception (no output, non-zero exit), or
a JSON document printed to stdout (exit code 0), remembering which
resource collections were fetched from the API along the way. -/
inductive Outcome where
  | exited (code : Int)
  | crashed
  | output (fetched : List Resource)
  deriving DecidableEq, Repr

/-- Resource argument passed to `load_from_prism_central` by each branch
of the dispatch (lines 318-341). -/
def command_resource (cmd : Command) : Option Resource :=
  match cmd with
  | Command.vms => some Resource.vms
  | Command.clusters => some Resource.clusters
  | Command.projects => some Resource.projects
  | Command.categories => some Resource.categories
  | Command.nodes => some Resource.nodes
  | Command.all => none
  | Command.list => some Resource.vms

/-- Model of the cache-management and dispatch part of
`PrismCentralInventory.__init__` (lines 304-349), entered after the
credential checks pass and when `--env` is absent.
* Lines 308-313: when `is_cache_valid()` holds the cache is loaded
  (crashing on a file that does not parse, see `load_from_cache`) and the
  run exits with `-1` when the loaded `data` dict is empty and
  `--force-cache` was given.
* Lines 318-341: the selected resource is loaded via
  `load_from_prism_central` and the matching `self.data[...]` entry is
  printed; a key that was neither cached nor fetched raises `KeyError`.
* For `--list`, `build_inventory` runs on the vms entities (freshly
  fetched ones when vms was fetched, cached ones otherwise) and can crash
  (see `process_vm`).
The `write_to_cache` call of lines 343-344 only touches the file system
and is not part of the outcome.  Both `is_cache_valid()` call sites
(line 308 and line 444) are evaluated at the same model time `now`. -/
def run_flow (force_cache refresh_cache fileExists : Bool) (modTime maxAge now : Int)
    (cacheFile : Option CacheSnapshot) (apiVms : List Vm) (gv : Json)
    (cmd : Command) : Outcome :=
  let cacheValid := is_cache_valid fileExists modTime maxAge now
  let loaded : Option (Option CacheSnapshot) :=
    if cacheValid then
      match cacheFile with
      | none => none
      | some snap => some (some snap)
    else some none
  match loaded with
  | none => Outcome.crashed
  | some loadedSnap =>
      let loadedKeys := match loadedSnap with
        | some snap => snap.dataKeys
        | none => []
      if cacheValid && loadedKeys.isEmpty && force_cache then Outcome.exited (-1)
      else
        let fetched := load_from_prism_central force_cache refresh_cache fileExists cacheValid
          (command_resource cmd)
        let available := fun (r : Resource) => loadedKeys.contains r || fetched.contains r
        match cmd with
        | Command.vms =>
            if available Resource.vms then Outcome.output fetched else Outcome.crashed
        | Command.clusters =>
            if available Resource.clusters then Outcome.output fetched else Outcome.crashed
        | Command.projects =>
            if available Resource.projects then Outcome.output fetched else Outcome.crashed
        | Command.categories =>
            if available Resource.categories then Outcome.output fetched else Outcome.crashed
        | Command.nodes =>
            if available Resource.nodes then Outcome.output fetched else Outcome.crashed
        | Command.all => Outcome.output fetched
        | Command.list =>
            if available Resource.vms then
              let entities :=
                if fetched.contains Resource.vms then apiVms
                else match loadedSnap with
                  | some snap => snap.vmsEntities
                  | none => []
              match build_inventory gv entities with
              | some _ => Outcome.output fetched
              | none => Outcome.crashed
            else Outcome.crashed

/-- Invariant of the `add_host` discipline: every group other than `all`
(whose list is also appended to directly on line 498) has a
duplicate-free host list. -/
def nodup_groups (g : Groups) : Prop :=
  ∀ k e, k ≠ "all" → g k = some e → e.hosts.Nodup

/-! Concrete inputs used to exercise the model. -/

/-- a VM with two interfaces, each carrying one assigned address. -/
def vm_two_nics : Vm :=
  { uuid := "u-aaaa", name := "web1", cluster_name := "ClusterA",
    project_name := "ProjA", owner_name := "admin", hypervisor_type := "AHV",
    power_state := "ON", categories := [],
    nic_list := [["10.0.0.1"], ["10.0.0.2"]] }

/-- a VM with two interfaces and no assigned address on either. -/
def vm_no_address : Vm :=
  { uuid := "u-bbbb", name := "web2", cluster_name := "ClusterA",
    project_name := "ProjA", owner_name := "admin", hypervisor_type := "AHV",
    power_state := "OFF", categories := [], nic_list := [[], []] }

/-- a VM carrying a category whose key contains a space. -/
def vm_cat_key_space : Vm :=
  { uuid := "u-cccc", name := "web3", cluster_name := "ClusterA",
    project_name := "ProjA", owner_name := "admin", hypervisor_type := "AHV",
    power_state := "ON", categories := [("My Env", "Prod")],
    nic_list := [["10.0.0.5"]] }

/-- a VM whose display name contains spaces. -/
def vm_space_name : Vm :=
  { uuid := "u-dddd", name := "web srv 1", cluster_name := "ClusterA",
    project_name := "ProjA", owner_name := "admin", hypervisor_type := "AHV",
    power_state := "ON", categories := [], nic_list := [["10.0.0.5"]] }

/-- first of two distinct VMs that resolve to the same address. -/
def vm_first : Vm :=
  { uuid := "u-1111", name := "node1", cluster_name := "ClusterA",
    project_name := "ProjA", owner_name := "admin", hypervisor_type := "AHV",
    power_state := "ON", categories := [], nic_list := [["10.0.0.5"]] }

/-- second of two distinct VMs that resolve to the same address. -/
def vm_second : Vm :=
  { uuid := "u-2222", name := "node2", cluster_name := "ClusterA",
    project_name := "ProjA", owner_name := "admin", hypervisor_type := "AHV",
    power_state := "OFF", categories := [], nic_list := [["10.0.0.5"]] }

/-- an HTTP 500 error body `{"message": "boom"}`. -/
def boom_body : String := "\x7b\"message\": \"boom\"\x7d"

/-- the decoded form of `boom_body`. -/
def boom_json : Json := Json.obj [("message", Json.str "boom")]

/-- a `json.loads` stand-in that decodes `boom_body` and nothing else. -/
def boom_parse : String → Option Json :=
  fun s => if s = boom_body then some boom_json else none

/-! Helper lemmas about the group table operations. -/

/-- Pointwise description of `add_host`. -/
theorem add_host_apply (g : Groups) (grp host k : String) :
    add_host g grp host k =
      if k = grp then
        some (match g grp with
          | none => { hosts := [host], vars := Json.obj [] }
          | some e => if host ∈ e.hosts then e else { e with hosts := e.hosts ++ [host] })
      else g k := by
  unfold add_host
  cases hg : g grp with
  | none => simp
  | some e =>
    by_cases hm : host ∈ e.hosts
    · simp only [if_pos hm]
      by_cases hk : k = grp
      · subst hk; simp [hg, hm]
      · simp [hk]
    · simp [hm]

/-- After `add_host g grp d`, the group `grp` exists and contains `d`. -/
theorem add_host_self (g : Groups) (grp d : String) :
    ∃ e, add_host g grp d grp = some e ∧ d ∈ e.hosts := by
  rw [add_host_apply]
  cases hg : g grp with
  | none => exact ⟨{ hosts := [d], vars := Json.obj [] }, by simp, by simp⟩
  | some e =>
    by_cases hm : d ∈ e.hosts
    · exact ⟨e, by simp [hm], hm⟩
    · exact ⟨{ e with hosts := e.hosts ++ [d] }, by simp [hm], by simp⟩

/-- `add_host` never removes a host from a group. -/
theorem add_host_preserve {g : Groups} {k d : String} (grp d' : String)
    (h : ∃ e, g k = some e ∧ d ∈ e.hosts) :
    ∃ e, add_host g grp d' k = some e ∧ d ∈ e.hosts := by
  obtain ⟨e, he, hd⟩ := h
  rw [add_host_apply]
  by_cases hk : k = grp
  · subst hk
    rw [if_pos rfl, he]
    by_cases hm : d' ∈ e.hosts
    · exact ⟨e, by simp [hm], hd⟩
    · exact ⟨{ e with hosts := e.hosts ++ [d'] }, by simp [hm], by simp [hd]⟩
  · rw [if_neg hk]; exact ⟨e, he, hd⟩

/-- `add_host` leaves other groups untouched. -/
theorem add_host_other {g : Groups} {grp k : String} (hk : k ≠ grp) (d : String) :
    add_host g grp d k = g k := by
  rw [add_host_apply, if_neg hk]

/-- when the host is already in the target group, `add_host` does not
change that group's entry (the membership test on line 476 fails). -/
theorem add_host_stable {g : Groups} {k : String} {e : GroupEntry} {d : String}
    (he : g k = some e) (hd : d ∈ e.hosts) (grp : String) :
    add_host g grp d k = some e := by
  rw [add_host_apply]
  by_cases hk : k = grp
  · subst hk; rw [he]; simp [hd]
  · simp [hk, he]

/-- Pointwise description of `append_all_host`. -/
theorem append_all_host_apply (g : Groups) (dest k : String) :
    append_all_host g dest k =
      if k = "all" then (g "all").map (fun e => { e with hosts := e.hosts ++ [dest] })
      else g k := rfl

/-- `append_all_host` never removes a host from a group. -/
theorem append_all_host_preserve {g : Groups} {k d : String} (d' : String)
    (h : ∃ e, g k = some e ∧ d ∈ e.hosts) :
    ∃ e, append_all_host g d' k = some e ∧ d ∈ e.hosts := by
  obtain ⟨e, he, hd⟩ := h
  rw [append_all_host_apply]
  by_cases hk : k = "all"
  · subst hk; rw [if_pos rfl, he]; exact ⟨_, rfl, by simp [hd]⟩
  · rw [if_neg hk]; exact ⟨e, he, hd⟩

/-- a fold of `add_host` calls (the fixed-groups loop, lines 505-511)
never removes a host from a group. -/
theorem foldl_add_host_preserve (l : List String) {g : Groups} {k d : String} (d' : String)
    (h : ∃ e, g k = some e ∧ d ∈ e.hosts) :
    ∃ e, (l.foldl (fun acc grp => add_host acc grp d') g) k = some e ∧ d ∈ e.hosts := by
  induction l generalizing g with
  | nil => exact h
  | cons grp rest ih => exact ih (add_host_preserve grp d' h)

/-- a fold of `add_host` calls leaves groups outside the list untouched. -/
theorem foldl_add_host_other (l : List String) {g : Groups} {k : String}
    (hk : k ∉ l) (d : String) :
    (l.foldl (fun acc grp => add_host acc grp d) g) k = g k := by
  induction l generalizing g with
  | nil => rfl
  | cons grp rest ih =>
    have hne : k ≠ grp := fun h => hk (h ▸ List.mem_cons_self grp rest)
    have : k ∉ rest := fun h => hk (List.mem_cons_of_mem _ h)
    rw [List.foldl_cons, ih this, add_host_other hne]

/-- a fold of `add_host` calls adding a host already present in group `k`
leaves the entry of `k` unchanged. -/
theorem foldl_add_host_stable (l : List String) {g : Groups} {k : String} {e : GroupEntry}
    {d : String} (he : g k = some e) (hd : d ∈ e.hosts) :
    (l.foldl (fun acc grp => add_host acc grp d) g) k = some e := by
  induction l generalizing g with
  | nil => exact he
  | cons grp rest ih => exact ih (add_host_stable he hd grp)

/-- the category loop (lines 514-517) never removes a host from a group. -/
theorem foldl_cat_preserve (cats : List (String × String)) {g : Groups} {k d : String}
    (d' : String) (h : ∃ e, g k = some e ∧ d ∈ e.hosts) :
    ∃ e, (cats.foldl (cat_step d') g) k = some e ∧ d ∈ e.hosts := by
  induction cats generalizing g with
  | nil => exact h
  | cons kv rest ih =>
    refine ih ?_
    unfold cat_step
    by_cases hkv : kv.1 = ""
    · simpa [hkv] using h
    · simpa [hkv] using add_host_preserve (category_group kv.1 kv.2) d' h

/-- the category loop leaves groups it does not name untouched. -/
theorem foldl_cat_other (cats : List (String × String)) {g : Groups} {k : String}
    (hk : ∀ kv ∈ cats, kv.1 ≠ "" → k ≠ category_group kv.1 kv.2) (d : String) :
    (cats.foldl (cat_step d) g) k = g k := by
  induction cats generalizing g with
  | nil => rfl
  | cons kv rest ih =>
    rw [List.foldl_cons, ih (fun kv' h' => hk kv' (List.mem_cons_of_mem _ h'))]
    unfold cat_step
    by_cases hkv : kv.1 = ""
    · simp [hkv]
    · simp only [if_neg hkv]
      exact add_host_other (hk kv (List.mem_cons_self kv rest) hkv) d

/-- the category loop adding a host already present in group `k` leaves
the entry of `k` unchanged. -/
theorem foldl_cat_stable (cats : List (String × String)) {g : Groups} {k : String}
    {e : GroupEntry} {d : String} (he : g k = some e) (hd : d ∈ e.hosts) :
    (cats.foldl (cat_step d) g) k = some e := by
  induction cats generalizing g with
  | nil => exact he
  | cons kv rest ih =>
    refine ih ?_
    unfold cat_step
    by_cases hkv : kv.1 = ""
    · simpa [hkv] using he
    · simpa [hkv] using add_host_stable he hd (category_group kv.1 kv.2)

/-- after the category loop, a category with a non-empty key contains the
destination address under the name built on line 516. -/
theorem foldl_cat_mem (cats : List (String × String)) {k v : String}
    (hmem : (k, v) ∈ cats) (hk : k ≠ "") (g : Groups) (d : String) :
    ∃ e, (cats.foldl (cat_step d) g) (category_group k v) = some e ∧ d ∈ e.hosts := by
  induction cats generalizing g with
  | nil => cases hmem
  | cons kv rest ih =>
    rcases List.mem_cons.mp hmem with hEq | hRest
    · subst hEq
      rw [List.foldl_cons]
      refine foldl_cat_preserve rest d ?_
      unfold cat_step
      simpa [hk] using add_host_self g (category_group k v) d
    · rw [List.foldl_cons]; exact ih hRest _

/-- `add_host` preserves duplicate-freeness of every non-`all` group. -/
theorem add_host_nodup {g : Groups} (h : nodup_groups g) (grp d : String) :
    nodup_groups (add_host g grp d) := by
  intro k e hk hke
  rw [add_host_apply] at hke
  by_cases hkg : k = grp
  · subst hkg
    rw [if_pos rfl] at hke
    cases hg : g k with
    | none =>
      rw [hg] at hke
      cases hke
      simp
    | some e0 =>
      rw [hg] at hke
      simp only [Option.some.injEq] at hke
      by_cases hm : d ∈ e0.hosts
      · rw [if_pos hm] at hke
        subst hke
        exact h k e0 hk hg
      · rw [if_neg hm] at hke
        subst hke
        exact List.Nodup.append (h k e0 hk hg) (List.nodup_singleton d)
          (List.disjoint_singleton.2 hm)
  · rw [if_neg hkg] at hke
    exact h k e hk hke

/-- `append_all_host` only touches the `all` entry, so it preserves the
invariant as well. -/
theorem append_all_host_nodup {g : Groups} (h : nodup_groups g) (d : String) :
    nodup_groups (append_all_host g d) := by
  intro k e hk hke
  rw [append_all_host_apply, if_neg hk] at hke
  exact h k e hk hke

/-- the fixed-groups loop preserves the invariant. -/
theorem foldl_add_host_nodup (l : List String) {g : Groups} (h : nodup_groups g)
    (d : String) : nodup_groups (l.foldl (fun acc grp => add_host acc grp d) g) := by
  induction l generalizing g with
  | nil => exact h
  | cons grp rest ih => exact ih (add_host_nodup h grp d)

/-- the category loop preserves the invariant. -/
theorem foldl_cat_nodup (cats : List (String × String)) {g : Groups} (h : nodup_groups g)
    (d : String) : nodup_groups (cats.foldl (cat_step d) g) := by
  induction cats generalizing g with
  | nil => exact h
  | cons kv rest ih =>
    refine ih ?_
    unfold cat_step
    by_cases hkv : kv.1 = ""
    · simpa [hkv] using h
    · simpa [hkv] using add_host_nodup h (category_group kv.1 kv.2) d

/-- Shape of the interface scan: the carried-in value only survives when
no interface of this VM has an assigned address. -/
theorem vm_scan_dest_shape (l : List (List String)) (a : Option String) :
    vm_scan_dest a l =
      match vm_scan_dest none l with
      | some d => some d
      | none => a := by
  induction l generalizing a with
  | nil => rfl
  | cons nic rest ih =>
    cases nic with
    | nil => simpa [vm_scan_dest] using ih a
    | cons ip ips =>
      show vm_scan_dest (some ip) rest = _
      have h1 : vm_scan_dest none (List.cons (ip :: ips) rest) = vm_scan_dest (some ip) rest := rfl
      rw [h1, ih (some ip)]
      cases vm_scan_dest none rest <;> rfl

/-- a VM whose own scan (started from an unassigned `dest`) yields an
address yields the same address whatever `dest` carried over. -/
theorem vm_scan_dest_of_none {l : List (List String)} {d : String}
    (h : vm_scan_dest none l = some d) (a : Option String) :
    vm_scan_dest a l = some d := by
  rw [vm_scan_dest_shape, h]

/-! Per-VM lemmas about `vm_groups` and the per-list unfoldings of
`build_inventory`. -/

/-- after processing one VM, its UUID group contains the destination. -/
theorem vm_groups_mem_uuid (g : Groups) (vm : Vm) (d : String) :
    ∃ e, vm_groups g vm d vm.uuid = some e ∧ d ∈ e.hosts :=
  foldl_cat_preserve _ d
    (foldl_add_host_preserve _ d (add_host_preserve vm.name d (add_host_self _ vm.uuid d)))

/-- after processing one VM, its display-name group contains the
destination. -/
theorem vm_groups_mem_name (g : Groups) (vm : Vm) (d : String) :
    ∃ e, vm_groups g vm d vm.name = some e ∧ d ∈ e.hosts :=
  foldl_cat_preserve _ d (foldl_add_host_preserve _ d (add_host_self _ vm.name d))

/-- after processing one VM, each of its non-empty-key categories
contains the destination under the (unsanitized-key) group name of
line 516. -/
theorem vm_groups_mem_cat (g : Groups) (vm : Vm) (d : String) {k v : String}
    (hmem : (k, v) ∈ vm.categories) (hk : k ≠ "") :
    ∃ e, vm_groups g vm d (category_group k v) = some e ∧ d ∈ e.hosts :=
  foldl_cat_mem _ hmem hk _ d

/-- processing one VM appends its destination (exactly once) to the
`all` entry. -/
theorem vm_groups_all (g : Groups) (vm : Vm) (d : String) {e : GroupEntry}
    (he : g "all" = some e) :
    vm_groups g vm d "all" = some { e with hosts := e.hosts ++ [d] } := by
  have h1 : append_all_host g d "all" = some { e with hosts := e.hosts ++ [d] } := by
    rw [append_all_host_apply, if_pos rfl, he]; rfl
  have hd : d ∈ (GroupEntry.hosts { e with hosts := e.hosts ++ [d] }) := by simp
  exact foldl_cat_stable _ (foldl_add_host_stable _
    (add_host_stable (add_host_stable h1 hd vm.uuid) hd vm.name) hd) hd

/-- processing one VM never removes a host from any group. -/
theorem vm_groups_preserve (vm : Vm) (d' : String) {g : Groups} {k d : String}
    (h : ∃ e, g k = some e ∧ d ∈ e.hosts) :
    ∃ e, vm_groups g vm d' k = some e ∧ d ∈ e.hosts :=
  foldl_cat_preserve _ d'
    (foldl_add_host_preserve _ d'
      (add_host_preserve vm.name d'
        (add_host_preserve vm.uuid d' (append_all_host_preserve d' h))))

/-- processing one VM creates no group beyond `all`, the UUID, the name,
the six fixed groups and the category groups. -/
theorem vm_groups_other (g : Groups) (vm : Vm) (d : String) {k : String}
    (hk1 : k ≠ "all") (hk2 : k ≠ vm.uuid) (hk3 : k ≠ vm.name)
    (hk4 : k ∉ fixed_groups vm)
    (hk5 : ∀ kv ∈ vm.categories, kv.1 ≠ "" → k ≠ category_group kv.1 kv.2) :
    vm_groups g vm d k = g k := by
  unfold vm_groups
  rw [foldl_cat_other _ hk5, foldl_add_host_other _ hk4, add_host_other hk3,
    add_host_other hk2, append_all_host_apply, if_neg hk1]

/-- processing one VM preserves duplicate-freeness of the non-`all`
groups. -/
theorem vm_groups_nodup {g : Groups} (h : nodup_groups g) (vm : Vm) (d : String) :
    nodup_groups (vm_groups g vm d) :=
  foldl_cat_nodup _
    (foldl_add_host_nodup _
      (add_host_nodup (add_host_nodup (append_all_host_nodup h d) vm.uuid d) vm.name d) d) d

/-- the initial inventory satisfies the duplicate-freeness invariant
(`all` is its only key). -/
theorem init_inventory_nodup (gv : Json) : nodup_groups (init_inventory gv).groups := by
  intro k e hk hke
  simp only [init_inventory, if_neg hk] at hke
  cases hke

/-- Unfolding of `build_inventory` on a one-element VM list. -/
theorem build_inventory_singleton {vm : Vm} {d : String} (gv : Json)
    (h : vm_scan_dest none vm.nic_list = some d) :
    build_inventory gv [vm] =
      some { groups := vm_groups (init_inventory gv).groups vm d,
             hostvars := fun k => if k = d then some vm else none } := by
  unfold build_inventory
  simp [List.foldlM, process_vm, h, init_inventory]

/-- Unfolding of `build_inventory` on a two-element VM list. -/
theorem build_inventory_pair {vm1 vm2 : Vm} {d1 d2 : String} (gv : Json)
    (h1 : vm_scan_dest none vm1.nic_list = some d1)
    (h2 : vm_scan_dest (some d1) vm2.nic_list = some d2) :
    build_inventory gv [vm1, vm2] =
      some { groups := vm_groups (vm_groups (init_inventory gv).groups vm1 d1) vm2 d2,
             hostvars := fun k =>
               if k = d2 then some vm2 else if k = d1 then some vm1 else none } := by
  unfold build_inventory
  simp [List.foldlM, process_vm, h1, h2, init_inventory]

/-! Claim theorems. -/

/-- C1: the claim states that the inventory address is the first assigned
address of the first interface having one, and that a VM with no assigned
address on any interface is skipped entirely.  The code does neither: on a
VM whose interfaces carry `10.0.0.1` then `10.0.0.2`, the scan keeps the
last addressed interface, so the chosen address is `10.0.0.2`; a VM with
no addressed interface is not skipped — it reuses the previous VM's
address (appearing in `all.hosts` and overwriting that address's
`hostvars` entry), and when it is the first VM the build crashes with
`NameError` instead of producing an inventory. -/
theorem c1_address_selection_behavior :
    vm_scan_dest none vm_two_nics.nic_list = some "10.0.0.2" ∧
    "10.0.0.2" ≠ "10.0.0.1" ∧
    ((build_inventory (Json.obj []) [vm_two_nics]).bind
        (fun i => i.groups "all")).map GroupEntry.hosts = some ["10.0.0.2"] ∧
    ((build_inventory (Json.obj []) [vm_two_nics, vm_no_address]).bind
        (fun i => i.groups "all")).map GroupEntry.hosts
      = some ["10.0.0.2", "10.0.0.2"] ∧
    ((build_inventory (Json.obj []) [vm_two_nics, vm_no_address]).bind
        (fun i => i.hostvars "10.0.0.2")) = some vm_no_address ∧
    build_inventory (Json.obj []) [vm_no_address] = none := by
  refine ⟨rfl, by decide, rfl, rfl, rfl, rfl⟩

/-- C2: when the cache is valid and `force_cache` is not set, requesting
any single resource other than `vms` fetches nothing from the API, while
requesting `vms` (the resource used by both `--vms` and the default
`--list`) always fetches `vms`, whatever the cache validity and the
`refresh_cache` flag. -/
theorem c2_vms_bypass_cache (rc e : Bool) (m a n : Int)
    (h : is_cache_valid e m a n = true) :
    (∀ r : Resource, r ≠ Resource.vms →
      load_from_prism_central false rc e (is_cache_valid e m a n) (some r) = []) ∧
    Resource.vms ∈
      load_from_prism_central false rc e (is_cache_valid e m a n) (some Resource.vms) ∧
    (∀ v : Bool, Resource.vms ∈ load_from_prism_central false rc e v (some Resource.vms)) := by
  rw [h]
  refine ⟨?_, ?_, ?_⟩
  · intro r hr
    cases r <;> first
      | exact absurd rfl hr
      | cases rc <;> simp [load_from_prism_central]
  · cases rc <;> simp [load_from_prism_central]
  · intro v
    cases v <;> cases rc <;> simp [load_from_prism_central]

/-- C2 witness at a concrete valid cache (`mtime 0`, `max_age 10`,
`now 5`). -/
theorem c2_vms_bypass_cache_witness :
    is_cache_valid true 0 10 5 = true ∧
    ((∀ r : Resource, r ≠ Resource.vms →
        load_from_prism_central false false true (is_cache_valid true 0 10 5) (some r) = []) ∧
      Resource.vms ∈
        load_from_prism_central false false true (is_cache_valid true 0 10 5)
          (some Resource.vms) ∧
      (∀ v : Bool,
        Resource.vms ∈ load_from_prism_central false false true v (some Resource.vms))) :=
  ⟨by decide, c2_vms_bypass_cache false true 0 10 5 (by decide)⟩

/-- C3: the claim states that `--force-cache` with no cache file aborts
with a non-zero exit code and emits no JSON.  The code does not: the
`sys.exit(-1)` guard only runs when the cache is valid, and
`load_from_prism_central` only returns early when the cache file exists,
so with `force_cache` set and no cache file the run falls through to a
fresh API fetch and prints the JSON result (for both `--vms` and the
default `--list`). -/
theorem c3_force_cache_without_file_fetches :
    run_flow true false false 0 0 0 none [] (Json.obj []) Command.vms
      = Outcome.output [Resource.vms] ∧
    run_flow true false false 0 0 0 none [] (Json.obj []) Command.list
      = Outcome.output [Resource.vms] ∧
    (∀ c : Int, Outcome.output [Resource.vms] ≠ Outcome.exited c) ∧
    Outcome.output [Resource.vms] ≠ Outcome.crashed := by
  refine ⟨rfl, rfl, ?_, ?_⟩
  · intro c h
    cases h
  · intro h
    cases h

/-- C4 counterexample: with `refresh_cache` set, `force_cache` unset, a
valid cache and a `--clusters` request, nothing at all is fetched — the
cache-valid early return on line 444 fires before the `refresh_cache`
override on lines 446-447, so the five collections are not fetched as the
claim requires. -/
theorem c4_refresh_cache_counterexample :
    load_from_prism_central false true true true (some Resource.clusters) = [] ∧
    ([] : List Resource)
      ≠ [Resource.vms, Resource.clusters, Resource.projects, Resource.categories,
         Resource.nodes] := by
  exact ⟨rfl, by decide⟩

/-- C4 amended: with `refresh_cache` set and `force_cache` not applying,
a request that reaches the fetch stage — the cache is invalid, or the
requested resource is `vms` — is widened to all five collections; but a
non-`vms` single-resource request with a valid cache returns early and
fetches nothing, `refresh_cache` notwithstanding. -/
theorem c4_refresh_cache_amended (fc e cv : Bool) (r : Resource)
    (hforce : ¬(fc = true ∧ e = true)) :
    (cv = false →
      load_from_prism_central fc true e cv (some r)
        = [Resource.vms, Resource.clusters, Resource.projects, Resource.categories,
           Resource.nodes]) ∧
    load_from_prism_central fc true e cv (some Resource.vms)
      = [Resource.vms, Resource.clusters, Resource.projects, Resource.categories,
         Resource.nodes] ∧
    (cv = true → r ≠ Resource.vms →
      load_from_prism_central fc true e cv (some r) = []) := by
  cases fc <;> cases e <;> cases cv <;> cases r <;>
    first
      | decide
      | exact absurd ⟨rfl, rfl⟩ hforce

/-- C4 amended witness at `force_cache` unset, cache file present but
invalid, resource `clusters`. -/
theorem c4_refresh_cache_amended_witness :
    ¬(false = true ∧ true = true) ∧
    ((false = false →
        load_from_prism_central false true true false (some Resource.clusters)
          = [Resource.vms, Resource.clusters, Resource.projects, Resource.categories,
             Resource.nodes]) ∧
      load_from_prism_central false true true false (some Resource.vms)
        = [Resource.vms, Resource.clusters, Resource.projects, Resource.categories,
           Resource.nodes] ∧
      (false = true → Resource.clusters ≠ Resource.vms →
        load_from_prism_central false true true false (some Resource.clusters) = [])) :=
  ⟨by decide, c4_refresh_cache_amended false true false Resource.clusters (by decide)⟩

/-- C5 counterexample: an HTTP error with an empty body yields
`("408", "")` — the raw empty string in the payload slot, which is
neither a parsed error payload nor the no-payload value `None` the claim
allows. -/
theorem c5_empty_error_body_counterexample :
    rest_call (fun _ => none) (HttpOutcome.httpError "") = RestResult.err "408" (PyVal.str "") ∧
    PyVal.str "" ≠ PyVal.pynone ∧
    (∀ j : Json, PyVal.str "" ≠ PyVal.json j) := by
  refine ⟨rfl, ?_, ?_⟩
  · intro h
    cases h
  · intro j h
    cases h

/-- C5 amended: every transport error, non-2xx status or JSON-decode
failure on the error body is returned (not raised) as the sentinel
`("408", payload)`, where the payload is the parsed error payload when
the error body is non-empty and decodes, `None` on a transport error or a
decode failure, and the raw empty string when the error body is empty. -/
theorem c5_error_normalization_amended (parse : String → Option Json) (o : HttpOutcome)
    (h : is_failure o = true) :
    ∃ p, rest_call parse o = RestResult.err "408" p ∧
      (o = HttpOutcome.transportError → p = PyVal.pynone) ∧
      (∀ b, o = HttpOutcome.httpError b → b ≠ "" → parse b = none → p = PyVal.pynone) ∧
      (∀ b j, o = HttpOutcome.httpError b → b ≠ "" → parse b = some j → p = PyVal.json j) ∧
      (o = HttpOutcome.httpError "" → p = PyVal.str "") := by
  cases o with
  | success body => cases h
  | transportError =>
    refine ⟨PyVal.pynone, rfl, fun _ => rfl, ?_, ?_, ?_⟩
    · intro b hb
      cases hb
    · intro b j hb
      cases hb
    · intro hb
      cases hb
  | httpError b =>
    by_cases hb : b = ""
    · subst hb
      refine ⟨PyVal.str "", rfl, ?_, ?_, ?_, fun _ => rfl⟩
      · intro hE
        cases hE
      · intro b' hb' hne
        cases hb'
        exact absurd rfl hne
      · intro b' j hb' hne
        cases hb'
        exact absurd rfl hne
    · cases hp : parse b with
      | none =>
        refine ⟨PyVal.pynone, ?_, ?_, fun _ _ => fun _ _ => rfl, ?_, ?_⟩
        · simp only [rest_call]
          rw [if_neg hb, hp]
        · intro hE
          cases hE
        · intro b' j hb' hne hp'
          cases hb'
          rw [hp] at hp'
          cases hp'
        · intro hE
          cases hE
          exact absurd rfl hb
      | some j =>
        refine ⟨PyVal.json j, ?_, ?_, ?_, ?_, ?_⟩
        · simp only [rest_call]
          rw [if_neg hb, hp]
        · intro hE
          cases hE
        · intro b' hb' hne hp'
          cases hb'
          rw [hp] at hp'
          cases hp'
        · intro b' j' hb' hne hp'
          cases hb'
          rw [hp] at hp'
          cases hp'
          rfl
        · intro hE
          cases hE
          exact absurd rfl hb

/-- C5 amended witness: HTTP 500 with error body `{"message": "boom"}`
yields the sentinel `("408", <decoded body>)`. -/
theorem c5_error_normalization_amended_witness :
    is_failure (HttpOutcome.httpError boom_body) = true ∧
    (∃ p, rest_call boom_parse (HttpOutcome.httpError boom_body) = RestResult.err "408" p ∧
      (HttpOutcome.httpError boom_body = HttpOutcome.transportError → p = PyVal.pynone) ∧
      (∀ b, HttpOutcome.httpError boom_body = HttpOutcome.httpError b → b ≠ "" →
        boom_parse b = none → p = PyVal.pynone) ∧
      (∀ b j, HttpOutcome.httpError boom_body = HttpOutcome.httpError b → b ≠ "" →
        boom_parse b = some j → p = PyVal.json j) ∧
      (HttpOutcome.httpError boom_body = HttpOutcome.httpError "" → p = PyVal.str "")) :=
  ⟨rfl, c5_error_normalization_amended boom_parse (HttpOutcome.httpError boom_body) rfl⟩

/-- C6 counterexample: a readable cache file whose content does not parse
as JSON makes `load_from_cache` raise (only `IOError` is caught, not
`ValueError`), rather than fall back to the empty snapshot. -/
theorem c6_parse_error_counterexample :
    load_from_cache (CacheRead.content none) = LoadResult.raised ∧
    (∀ d i : Json, LoadResult.raised ≠ LoadResult.ok d i) := by
  refine ⟨rfl, ?_⟩
  intro d i h
  cases h

/-- C6 amended: a missing cache file (`IOError`) yields the empty
snapshot `{data: {}, inventory: {}}`, but a file whose content fails to
parse as JSON raises an uncaught `ValueError` and fails the run. -/
theorem c6_cache_read_amended :
    load_from_cache CacheRead.missing = LoadResult.ok (Json.obj []) (Json.obj []) ∧
    load_from_cache (CacheRead.content none) = LoadResult.raised :=
  ⟨rfl, rfl⟩

/-- C7: `is_cache_valid` holds exactly when the cache file exists and
`mtime + max_age > now` strictly; in particular it is false at the exact
boundary `mtime + max_age = now` and false whenever the file is absent,
whatever the max-age. -/
theorem c7_cache_validity :
    (∀ (e : Bool) (m a n : Int),
      is_cache_valid e m a n = true ↔ (e = true ∧ m + a > n)) ∧
    (∀ m a : Int, is_cache_valid true m a (m + a) = false) ∧
    (∀ m a n : Int, is_cache_valid false m a n = false) := by
  refine ⟨?_, ?_, ?_⟩
  · intro e m a n
    cases e <;> simp [is_cache_valid]
  · intro m a
    simp [is_cache_valid]
  · intro m a n
    rfl

/-- C8 counterexample: for a VM with category `{"My Env": "Prod"}` and
address `10.0.0.5`, the built inventory contains the group
`category_my env_prod` — the key lowercased but with its space intact —
and no group `category_my_env_prod`, although the claim's sanitization of
both key and value (`to_safe "My Env" = "My_Env"`) requires the latter
name. -/
theorem c8_category_key_counterexample :
    ((build_inventory (Json.obj []) [vm_cat_key_space]).bind
        (fun i => i.groups "category_my env_prod")).map GroupEntry.hosts
      = some ["10.0.0.5"] ∧
    ((build_inventory (Json.obj []) [vm_cat_key_space]).bind
        (fun i => i.groups "category_my_env_prod")) = none ∧
    to_safe "My Env" = "My_Env" := by
  exact ⟨rfl, rfl, rfl⟩

/-- C8 amended: for every category entry with a non-empty key, the VM's
address is added to the group `category_<key lowercased>_<to_safe(value)
lowercased>`: only the value is sanitized by `to_safe`; the key is
lowercased but not sanitized. -/
theorem c8_category_group_amended (gv : Json) (vm : Vm) (d k v : String)
    (h : vm_scan_dest none vm.nic_list = some d)
    (hmem : (k, v) ∈ vm.categories) (hk : k ≠ "") :
    ∃ inv, build_inventory gv [vm] = some inv ∧
      ∃ e, inv.groups ("category_" ++ py_lower k ++ "_" ++ py_lower (to_safe v)) = some e ∧
        d ∈ e.hosts := by
  refine ⟨_, build_inventory_singleton gv h, ?_⟩
  exact vm_groups_mem_cat _ _ _ hmem hk

/-- C8 amended witness on the VM with category `{"My Env": "Prod"}`. -/
theorem c8_category_group_amended_witness :
    vm_scan_dest none vm_cat_key_space.nic_list = some "10.0.0.5" ∧
    ("My Env", "Prod") ∈ vm_cat_key_space.categories ∧
    "My Env" ≠ "" ∧
    (∃ inv, build_inventory (Json.obj []) [vm_cat_key_space] = some inv ∧
      ∃ e, inv.groups ("category_" ++ py_lower "My Env" ++ "_" ++ py_lower (to_safe "Prod"))
          = some e ∧ "10.0.0.5" ∈ e.hosts) :=
  ⟨rfl, by decide, by decide,
    c8_category_group_amended (Json.obj []) vm_cat_key_space "10.0.0.5" "My Env" "Prod"
      rfl (by decide) (by decide)⟩

/-- C9: when two distinct VMs resolve to the same address `d`, the `all`
entry (appended to unconditionally on line 498) holds `d` twice, every
other group (populated only through the membership-checked `add_host`)
holds `d` at most once — and the first VM's UUID group holds it exactly
once — and `_meta.hostvars` maps `d` to the VM processed last. -/
theorem c9_duplicate_address_behavior (gv : Json) (vm1 vm2 : Vm) (d : String)
    (_hne : vm1 ≠ vm2)
    (h1 : vm_scan_dest none vm1.nic_list = some d)
    (h2 : vm_scan_dest none vm2.nic_list = some d) :
    ∃ inv, build_inventory gv [vm1, vm2] = some inv ∧
      (∃ e, inv.groups "all" = some e ∧ e.hosts.count d = 2) ∧
      (∀ k e, k ≠ "all" → inv.groups k = some e → e.hosts.count d ≤ 1) ∧
      (vm1.uuid ≠ "all" → ∃ e, inv.groups vm1.uuid = some e ∧ e.hosts.count d = 1) ∧
      inv.hostvars d = some vm2 := by
  have h2' := vm_scan_dest_of_none h2 (some d)
  refine ⟨_, build_inventory_pair gv h1 h2', ?_, ?_, ?_, ?_⟩
  · have hinit : (init_inventory gv).groups "all" = some { hosts := [], vars := gv } := by
      simp [init_inventory]
    have hall1 := vm_groups_all (init_inventory gv).groups vm1 d hinit
    have hall2 := vm_groups_all (vm_groups (init_inventory gv).groups vm1 d) vm2 d hall1
    exact ⟨_, hall2, by simp⟩
  · have hnd : nodup_groups (vm_groups (vm_groups (init_inventory gv).groups vm1 d) vm2 d) :=
      vm_groups_nodup (vm_groups_nodup (init_inventory_nodup gv) vm1 d) vm2 d
    intro k e hk hke
    exact List.nodup_iff_count_le_one.1 (hnd k e hk hke) d
  · intro huuid
    have hmem1 := vm_groups_mem_uuid (init_inventory gv).groups vm1 d
    obtain ⟨e, he, hde⟩ := vm_groups_preserve vm2 d hmem1
    have hnd : nodup_groups (vm_groups (vm_groups (init_inventory gv).groups vm1 d) vm2 d) :=
      vm_groups_nodup (vm_groups_nodup (init_inventory_nodup gv) vm1 d) vm2 d
    exact ⟨e, he, List.count_eq_one_of_mem (hnd vm1.uuid e huuid he) hde⟩
  · simp

/-- C9 witness: two distinct VMs sharing the address `10.0.0.5`. -/
theorem c9_duplicate_address_behavior_witness :
    vm_first ≠ vm_second ∧
    vm_scan_dest none vm_first.nic_list = some "10.0.0.5" ∧
    vm_scan_dest none vm_second.nic_list = some "10.0.0.5" ∧
    (∃ inv, build_inventory (Json.obj []) [vm_first, vm_second] = some inv ∧
      (∃ e, inv.groups "all" = some e ∧ e.hosts.count "10.0.0.5" = 2) ∧
      (∀ k e, k ≠ "all" → inv.groups k = some e → e.hosts.count "10.0.0.5" ≤ 1) ∧
      (vm_first.uuid ≠ "all" →
        ∃ e, inv.groups vm_first.uuid = some e ∧ e.hosts.count "10.0.0.5" = 1) ∧
      inv.hostvars "10.0.0.5" = some vm_second) :=
  ⟨by decide, rfl, rfl,
    c9_duplicate_address_behavior (Json.obj []) vm_first vm_second "10.0.0.5"
      (by decide) rfl rfl⟩

/-- C10: the groups keyed by a VM's UUID and display name use the raw
strings verbatim (the address lands in the groups keyed exactly by
`vm.uuid` and `vm.name`), and no other key beyond `all`, the fixed groups
and the category groups is ever created — in particular no sanitized
variant of the name exists when the raw name needed sanitizing. -/
theorem c10_raw_uuid_name_groups (gv : Json) (vm : Vm) (d : String)
    (h : vm_scan_dest none vm.nic_list = some d) :
    ∃ inv, build_inventory gv [vm] = some inv ∧
      (∃ e, inv.groups vm.uuid = some e ∧ d ∈ e.hosts) ∧
      (∃ e, inv.groups vm.name = some e ∧ d ∈ e.hosts) ∧
      (∀ k, k ≠ "all" → k ≠ vm.uuid → k ≠ vm.name → k ∉ fixed_groups vm →
        (∀ kv ∈ vm.categories, kv.1 ≠ "" → k ≠ category_group kv.1 kv.2) →
        inv.groups k = none) := by
  refine ⟨_, build_inventory_singleton gv h, vm_groups_mem_uuid _ _ _,
    vm_groups_mem_name _ _ _, ?_⟩
  intro k hk1 hk2 hk3 hk4 hk5
  show vm_groups (init_inventory gv).groups vm d k = none
  rw [vm_groups_other _ _ _ hk1 hk2 hk3 hk4 hk5]
  simp [init_inventory, hk1]

/-- C10 witness: a VM named `web srv 1` produces a group under that raw
name (spaces included), and no group under the sanitized `web_srv_1`. -/
theorem c10_raw_uuid_name_groups_witness :
    vm_scan_dest none vm_space_name.nic_list = some "10.0.0.5" ∧
    (∃ inv, build_inventory (Json.obj []) [vm_space_name] = some inv ∧
      (∃ e, inv.groups vm_space_name.uuid = some e ∧ "10.0.0.5" ∈ e.hosts) ∧
      (∃ e, inv.groups vm_space_name.name = some e ∧ "10.0.0.5" ∈ e.hosts) ∧
      (∀ k, k ≠ "all" → k ≠ vm_space_name.uuid → k ≠ vm_space_name.name →
        k ∉ fixed_groups vm_space_name →
        (∀ kv ∈ vm_space_name.categories, kv.1 ≠ "" → k ≠ category_group kv.1 kv.2) →
        inv.groups k = none)) :=
  ⟨rfl, c10_raw_uuid_name_groups (Json.obj []) vm_space_name "10.0.0.5" rfl⟩

end PrismCentral
